import Mathlib

/-!
Shallow embedding of `src/breaker.go` (package `governance`): a per-resource
circuit breaker.  Go machine integers (`int`, `int64`) are modelled as `Int`;
the Go map `map[string]*RPC` is modelled as an association list with
last-write-wins insertion; timestamps (`time.Now().Unix()`) are passed in as
explicit `Int` parameters.  Mutation through pointers is modelled by writing
the updated record back into the registry at the same key — except where the
Go source itself fails to write back (see `setOpenStatus`), in which case the
embedding faithfully leaves the state unchanged.
-/

namespace Governance

/-- Embeds `BreakerStatus` with its three constants `CloseStatus`,
`HalfOpenStatus`, `OpenStatus` (iota order as in the source). -/
inductive BreakerStatus where
  | CloseStatus
  | HalfOpenStatus
  | OpenStatus
deriving DecidableEq, Repr

export BreakerStatus (CloseStatus HalfOpenStatus OpenStatus)

/-- Embeds `Config`: `FailThreshold int`, `SuccThreshold int`,
`OpenTimeout int64`. -/
structure Config where
  FailThreshold : Int
  SuccThreshold : Int
  OpenTimeout : Int
deriving DecidableEq, Repr

/-- Embeds `RPC`: the per-resource health record. -/
structure RPC where
  Status : BreakerStatus
  FailCount : Int
  SuccCount : Int
  OpenTime : Int
deriving DecidableEq, Repr

/-- Lookup in the registry, embedding `v, ok := breaker.R[r]`. -/
def lookupR : List (String × RPC) → String → Option RPC
  | [], _ => none
  | (k, v) :: rest, r => if k = r then some v else lookupR rest r

/-- Store into the registry, embedding `breaker.R[r] = ...` (replaces the
existing entry for the key, or appends a new one). -/
def insertR : List (String × RPC) → String → RPC → List (String × RPC)
  | [], r, v => [(r, v)]
  | (k, w) :: rest, r, v =>
      if k = r then (k, v) :: rest else (k, w) :: insertR rest r v

/-- Embeds `Breaker` (the `sync.Mutex` serialises access and has no effect on
the sequential state; it is omitted). -/
structure Breaker where
  Config : Config
  R : List (String × RPC)
deriving DecidableEq, Repr

/-- Embeds `InitBreaker`: fresh empty registry (the spawned `autoHalfOpen`
goroutine is modelled by explicit ticker-pass steps, see `autoHalfOpenTick`). -/
def InitBreaker (config : Config) : Breaker :=
  { Config := config, R := [] }

/-- Embeds `rpc.isHalfOpen()`. -/
def RPC.isHalfOpen (rpc : RPC) : Bool :=
  rpc.Status = HalfOpenStatus

/-- Embeds `rpc.isOpen()`. -/
def RPC.isOpen (rpc : RPC) : Bool :=
  rpc.Status = OpenStatus

/-- Embeds `rpc.isClose()`. -/
def RPC.isClose (rpc : RPC) : Bool :=
  rpc.Status = CloseStatus

/-- Embeds `(breaker *Breaker) getStatus(r string)`: the status of the record
for `r`, or `CloseStatus` when no record exists.  The method only reads
`breaker.R`; it performs no writes. -/
def getStatus (breaker : Breaker) (r : String) : BreakerStatus :=
  match lookupR breaker.R r with
  | some v => v.Status
  | none => CloseStatus

/-- Embeds `setOpenStatus(rpc *RPC)`.  In the Go source the body is the single
assignment `rpc = &RPC{Status: OpenStatus, ..., OpenTime: time.Now().Unix()}`,
which rebinds the callee's local pointer parameter to a freshly allocated
record.  The record the caller's map entry points to, and the map itself, are
not modified.  The embedding therefore returns the record the local was
rebound to, and every call site discards the result, matching the absence of
any write-back in the source. -/
def setOpenStatus (now : Int) : RPC :=
  { Status := OpenStatus, FailCount := 0, SuccCount := 0, OpenTime := now }

/-- Embeds `(breaker *Breaker) setFail(r string)`.  `now` stands for the
`time.Now().Unix()` that `setOpenStatus` would read.  Note that both calls to
`setOpenStatus` discard their result, exactly as the Go call
`setOpenStatus(breaker.R[r])` mutates only a callee-local pointer. -/
def setFail (breaker : Breaker) (r : String) (now : Int) : Breaker :=
  match lookupR breaker.R r with
  | some v =>
      if v.isHalfOpen then
        let _ := setOpenStatus now
        breaker
      else if v.isClose then
        let v' : RPC := { v with FailCount := v.FailCount + 1 }
        let breaker' : Breaker := { breaker with R := insertR breaker.R r v' }
        if v'.FailCount ≥ breaker.Config.FailThreshold then
          let _ := setOpenStatus now
          breaker'
        else
          breaker'
      else
        breaker
  | none =>
      let breaker' : Breaker :=
        { breaker with
          R := insertR breaker.R r
            { Status := CloseStatus, FailCount := 0, SuccCount := 0, OpenTime := 0 } }
      if breaker.Config.FailThreshold = 1 then
        let _ := setOpenStatus now
        breaker'
      else
        { breaker' with
          R := insertR breaker'.R r
            { Status := CloseStatus, FailCount := 1, SuccCount := 0, OpenTime := 0 } }

/-- Embeds `(breaker *Breaker) setSucc(r string)`.  `v.SuccCount++` mutates
the record through the shared pointer (modelled by writing the bumped record
back); reaching the threshold then replaces the map entry with a fresh
Closed record. -/
def setSucc (breaker : Breaker) (r : String) : Breaker :=
  match lookupR breaker.R r with
  | some v =>
      if v.isHalfOpen then
        let v' : RPC := { v with SuccCount := v.SuccCount + 1 }
        let breaker' : Breaker := { breaker with R := insertR breaker.R r v' }
        if v'.SuccCount ≥ breaker.Config.SuccThreshold then
          { breaker' with
            R := insertR breaker'.R r
              { Status := CloseStatus, FailCount := 0, SuccCount := 0, OpenTime := 0 } }
        else
          breaker'
      else
        breaker
  | none => breaker

/-- Embeds one pass of the ticker loop body of `autoHalfOpen` (the
`for r, v := range breaker.R` under `case <-ticker.C`).  `nowTime` is the
timestamp the goroutine captured with `time.Now().Unix()` — captured once,
before the loop, in the source.  An entry is replaced by a fresh Half-Open
record exactly when `v.Status == OpenStatus && v.OpenTime+OpenTimeout >
nowTime`, as written in the source. -/
def autoHalfOpenTick (breaker : Breaker) (nowTime : Int) : Breaker :=
  { breaker with
    R := breaker.R.map fun p =>
      if p.2.Status = OpenStatus ∧ p.2.OpenTime + breaker.Config.OpenTimeout > nowTime then
        (p.1, { Status := HalfOpenStatus, FailCount := 0, SuccCount := 0, OpenTime := 0 })
      else
        p }

/-- One externally observable step against the breaker: a reported failure, a
reported success, one pass of the recovery ticker, or a status query. -/
inductive Op where
  | fail (r : String) (now : Int)
  | succ (r : String)
  | tick (nowTime : Int)
  | query (r : String)
deriving DecidableEq, Repr

/-- The state transformation of one step.  `getStatus` performs no writes in
the source, so a `query` step leaves the state as it is. -/
def execOp (breaker : Breaker) : Op → Breaker
  | Op.fail r now => setFail breaker r now
  | Op.succ r => setSucc breaker r
  | Op.tick nowTime => autoHalfOpenTick breaker nowTime
  | Op.query _ => breaker

/-- Run a finite sequence of steps. -/
def run (breaker : Breaker) (ops : List Op) : Breaker :=
  ops.foldl execOp breaker

/-- `n` consecutive `setSucc` calls on resource `r`. -/
def succN (breaker : Breaker) (r : String) : Nat → Breaker
  | 0 => breaker
  | n + 1 => succN (setSucc breaker r) r n

/-- The record shape every reachable registry entry has: Closed, with
`OpenTime` and `SuccCount` zero and a nonnegative `FailCount`.
`setOpenStatus` never writes back into the registry, so no operation ever
stores a record whose status differs from `CloseStatus`. -/
def RecordInv (v : RPC) : Prop :=
  v.Status = CloseStatus ∧ v.OpenTime = 0 ∧ v.SuccCount = 0 ∧ 0 ≤ v.FailCount

/-- Every record in the registry satisfies `RecordInv`. -/
def BreakerInv (b : Breaker) : Prop :=
  ∀ r v, lookupR b.R r = some v → RecordInv v

/-! ### Registry lemmas -/

theorem lookupR_insertR_self (m : List (String × RPC)) (k : String) (v : RPC) :
    lookupR (insertR m k v) k = some v := by
  induction m with
  | nil => simp [insertR, lookupR]
  | cons p rest ih =>
      obtain ⟨k0, w⟩ := p
      by_cases h : k0 = k
      · simp [insertR, h, lookupR]
      · simp [insertR, h, lookupR, ih]

theorem lookupR_insertR_ne (m : List (String × RPC)) (k k' : String) (v : RPC)
    (h : k' ≠ k) : lookupR (insertR m k v) k' = lookupR m k' := by
  induction m with
  | nil => simp [insertR, lookupR, Ne.symm h]
  | cons p rest ih =>
      obtain ⟨k0, w⟩ := p
      by_cases hk : k0 = k
      · subst hk
        simp [insertR, lookupR, Ne.symm h]
      · by_cases hk' : k0 = k'
        · simp [insertR, hk, lookupR, hk', h]
        · simp [insertR, hk, lookupR, hk', ih]

/-! ### Branch characterizations of the operations -/

theorem setFail_halfopen (b : Breaker) (r : String) (now : Int) (v : RPC)
    (h : lookupR b.R r = some v) (hs : v.Status = HalfOpenStatus) :
    setFail b r now = b := by
  simp [setFail, h, RPC.isHalfOpen, hs]

theorem setFail_open (b : Breaker) (r : String) (now : Int) (v : RPC)
    (h : lookupR b.R r = some v) (hs : v.Status = OpenStatus) :
    setFail b r now = b := by
  simp [setFail, h, RPC.isHalfOpen, RPC.isClose, hs]

theorem setFail_closed (b : Breaker) (r : String) (now : Int) (v : RPC)
    (h : lookupR b.R r = some v) (hs : v.Status = CloseStatus) :
    setFail b r now =
      { b with R := insertR b.R r { v with FailCount := v.FailCount + 1 } } := by
  simp [setFail, h, RPC.isHalfOpen, RPC.isClose, hs]

theorem setFail_absent_one (b : Breaker) (r : String) (now : Int)
    (h : lookupR b.R r = none) (h1 : b.Config.FailThreshold = 1) :
    setFail b r now =
      { b with R := insertR b.R r ⟨CloseStatus, 0, 0, 0⟩ } := by
  simp [setFail, h, h1]

theorem setFail_absent_many (b : Breaker) (r : String) (now : Int)
    (h : lookupR b.R r = none) (h1 : b.Config.FailThreshold ≠ 1) :
    setFail b r now =
      { b with R := insertR (insertR b.R r ⟨CloseStatus, 0, 0, 0⟩) r ⟨CloseStatus, 1, 0, 0⟩ } := by
  simp [setFail, h, h1]

theorem setSucc_absent (b : Breaker) (r : String)
    (h : lookupR b.R r = none) : setSucc b r = b := by
  simp [setSucc, h]

theorem setSucc_not_halfopen (b : Breaker) (r : String) (v : RPC)
    (h : lookupR b.R r = some v) (hs : v.Status ≠ HalfOpenStatus) :
    setSucc b r = b := by
  simp [setSucc, h, RPC.isHalfOpen, hs]

theorem setSucc_halfopen_below (b : Breaker) (r : String) (v : RPC)
    (h : lookupR b.R r = some v) (hs : v.Status = HalfOpenStatus)
    (hlt : v.SuccCount + 1 < b.Config.SuccThreshold) :
    setSucc b r = { b with R := insertR b.R r { v with SuccCount := v.SuccCount + 1 } } := by
  have hneg : ¬ (v.SuccCount + 1 ≥ b.Config.SuccThreshold) := by omega
  simp [setSucc, h, RPC.isHalfOpen, hs, hneg]

theorem setSucc_halfopen_close (b : Breaker) (r : String) (v : RPC)
    (h : lookupR b.R r = some v) (hs : v.Status = HalfOpenStatus)
    (hge : v.SuccCount + 1 ≥ b.Config.SuccThreshold) :
    setSucc b r =
      { b with
        R := insertR (insertR b.R r { v with SuccCount := v.SuccCount + 1 }) r
          ⟨CloseStatus, 0, 0, 0⟩ } := by
  simp [setSucc, h, RPC.isHalfOpen, hs, hge]

theorem lookupR_map (f : RPC → RPC) (m : List (String × RPC)) (r : String) :
    lookupR (m.map fun p => (p.1, f p.2)) r = (lookupR m r).map f := by
  induction m with
  | nil => rfl
  | cons p rest ih =>
      obtain ⟨k, v⟩ := p
      by_cases hk : k = r <;> simp [lookupR, hk, ih]

theorem autoHalfOpenTick_fun_eq (cfg : Config) (t : Int) :
    (fun p : String × RPC =>
      if p.2.Status = OpenStatus ∧ p.2.OpenTime + cfg.OpenTimeout > t then
        (p.1, (⟨HalfOpenStatus, 0, 0, 0⟩ : RPC))
      else p)
    = fun p : String × RPC =>
        (p.1,
          if p.2.Status = OpenStatus ∧ p.2.OpenTime + cfg.OpenTimeout > t then
            (⟨HalfOpenStatus, 0, 0, 0⟩ : RPC)
          else p.2) := by
  funext p
  by_cases hc : p.2.Status = OpenStatus ∧ p.2.OpenTime + cfg.OpenTimeout > t
  · rw [if_pos hc, if_pos hc]
  · rw [if_neg hc, if_neg hc]

theorem lookupR_autoHalfOpenTick (b : Breaker) (t : Int) (r : String) :
    lookupR (autoHalfOpenTick b t).R r
      = (lookupR b.R r).map fun v =>
          if v.Status = OpenStatus ∧ v.OpenTime + b.Config.OpenTimeout > t then
            (⟨HalfOpenStatus, 0, 0, 0⟩ : RPC)
          else v := by
  show lookupR (b.R.map _) r = _
  rw [autoHalfOpenTick_fun_eq]
  exact lookupR_map
    (fun v =>
      if v.Status = OpenStatus ∧ v.OpenTime + b.Config.OpenTimeout > t then
        (⟨HalfOpenStatus, 0, 0, 0⟩ : RPC)
      else v) b.R r

/-! ### Configuration is never written -/

theorem setFail_Config (b : Breaker) (r : String) (now : Int) :
    (setFail b r now).Config = b.Config := by
  rcases h : lookupR b.R r with _ | v
  · by_cases h1 : b.Config.FailThreshold = 1
    · rw [setFail_absent_one b r now h h1]
    · rw [setFail_absent_many b r now h h1]
  · cases hs : v.Status with
    | CloseStatus => rw [setFail_closed b r now v h hs]
    | HalfOpenStatus => rw [setFail_halfopen b r now v h hs]
    | OpenStatus => rw [setFail_open b r now v h hs]

theorem setSucc_Config (b : Breaker) (r : String) :
    (setSucc b r).Config = b.Config := by
  rcases h : lookupR b.R r with _ | v
  · rw [setSucc_absent b r h]
  · by_cases hs : v.Status = HalfOpenStatus
    · by_cases hge : v.SuccCount + 1 ≥ b.Config.SuccThreshold
      · rw [setSucc_halfopen_close b r v h hs hge]
      · rw [setSucc_halfopen_below b r v h hs (by omega)]
    · rw [setSucc_not_halfopen b r v h hs]

theorem succN_Config (b : Breaker) (r : String) (n : Nat) :
    (succN b r n).Config = b.Config := by
  induction n generalizing b with
  | zero => rfl
  | succ n ih => rw [succN, ih (setSucc b r), setSucc_Config]

/-! ### The reachability invariant: every stored record is Closed -/

theorem getStatus_some (b : Breaker) (r : String) (v : RPC)
    (h : lookupR b.R r = some v) : getStatus b r = v.Status := by
  simp [getStatus, h]

theorem getStatus_none (b : Breaker) (r : String)
    (h : lookupR b.R r = none) : getStatus b r = CloseStatus := by
  simp [getStatus, h]

theorem breakerInv_init (cfg : Config) : BreakerInv (InitBreaker cfg) := by
  intro r v h
  simp [InitBreaker, lookupR] at h

theorem breakerInv_setFail (b : Breaker) (r : String) (now : Int)
    (hInv : BreakerInv b) : BreakerInv (setFail b r now) := by
  intro r' v' h'
  rcases h : lookupR b.R r with _ | v
  · by_cases h1 : b.Config.FailThreshold = 1
    · rw [setFail_absent_one b r now h h1] at h'
      by_cases hr : r' = r
      · subst hr
        rw [lookupR_insertR_self] at h'
        cases h'
        exact ⟨rfl, rfl, rfl, le_refl 0⟩
      · rw [lookupR_insertR_ne _ _ _ _ hr] at h'
        exact hInv r' v' h'
    · rw [setFail_absent_many b r now h h1] at h'
      by_cases hr : r' = r
      · subst hr
        rw [lookupR_insertR_self] at h'
        cases h'
        exact ⟨rfl, rfl, rfl, by decide⟩
      · rw [lookupR_insertR_ne _ _ _ _ hr, lookupR_insertR_ne _ _ _ _ hr] at h'
        exact hInv r' v' h'
  · obtain ⟨hvc, hvo, hvs, hvf⟩ := hInv r v h
    rw [setFail_closed b r now v h hvc] at h'
    by_cases hr : r' = r
    · subst hr
      rw [lookupR_insertR_self] at h'
      cases h'
      exact ⟨hvc, hvo, hvs, by show (0 : Int) ≤ v.FailCount + 1; omega⟩
    · rw [lookupR_insertR_ne _ _ _ _ hr] at h'
      exact hInv r' v' h'

theorem breakerInv_setSucc (b : Breaker) (r : String)
    (hInv : BreakerInv b) : BreakerInv (setSucc b r) := by
  intro r' v' h'
  rcases h : lookupR b.R r with _ | v
  · rw [setSucc_absent b r h] at h'
    exact hInv r' v' h'
  · obtain ⟨hvc, _, _, _⟩ := hInv r v h
    rw [setSucc_not_halfopen b r v h (by rw [hvc]; intro hc; cases hc)] at h'
    exact hInv r' v' h'

theorem breakerInv_autoHalfOpenTick (b : Breaker) (t : Int)
    (hInv : BreakerInv b) : BreakerInv (autoHalfOpenTick b t) := by
  intro r' v' h'
  rw [lookupR_autoHalfOpenTick] at h'
  rcases h : lookupR b.R r' with _ | v
  · rw [h] at h'
    cases h'
  · obtain ⟨hvc, hvo, hvs, hvf⟩ := hInv r' v h
    rw [h] at h'
    have hcond : ¬ (v.Status = OpenStatus ∧ v.OpenTime + b.Config.OpenTimeout > t) := by
      rintro ⟨hc, -⟩
      rw [hvc] at hc
      cases hc
    rw [Option.map_some', if_neg hcond] at h'
    cases h'
    exact ⟨hvc, hvo, hvs, hvf⟩

theorem breakerInv_execOp (b : Breaker) (op : Op)
    (hInv : BreakerInv b) : BreakerInv (execOp b op) := by
  cases op with
  | fail r now => exact breakerInv_setFail b r now hInv
  | succ r => exact breakerInv_setSucc b r hInv
  | tick t => exact breakerInv_autoHalfOpenTick b t hInv
  | query r => exact hInv

theorem breakerInv_run (b : Breaker) (ops : List Op)
    (hInv : BreakerInv b) : BreakerInv (run b ops) := by
  induction ops generalizing b with
  | nil => exact hInv
  | cons op rest ih => exact ih (execOp b op) (breakerInv_execOp b op hInv)

/-! ### Consecutive successes while Half-Open -/

theorem succN_succ (b : Breaker) (r : String) (n : Nat) :
    succN b r (n + 1) = setSucc (succN b r n) r := by
  induction n generalizing b with
  | zero => rfl
  | succ n ih =>
      show succN (setSucc b r) r (n + 1) = setSucc (succN (setSucc b r) r n) r
      exact ih (setSucc b r)

theorem succN_halfopen_below (b : Breaker) (r : String) (v : RPC) (n : Nat)
    (h : lookupR b.R r = some v) (hs : v.Status = HalfOpenStatus)
    (hlt : v.SuccCount + n < b.Config.SuccThreshold) :
    lookupR (succN b r n).R r = some { v with SuccCount := v.SuccCount + n } := by
  induction n generalizing b v with
  | zero => simpa using h
  | succ n ih =>
      have hlt1 : v.SuccCount + 1 < b.Config.SuccThreshold := by
        push_cast at hlt
        omega
      show lookupR (succN (setSucc b r) r n).R r = _
      rw [setSucc_halfopen_below b r v h hs hlt1]
      have hres := ih ({ b with R := insertR b.R r { v with SuccCount := v.SuccCount + 1 } })
        ({ v with SuccCount := v.SuccCount + 1 }) (lookupR_insertR_self _ _ _) hs
        (by show v.SuccCount + 1 + (n : Int) < b.Config.SuccThreshold
            push_cast at hlt
            omega)
      rw [hres]
      congr 2
      push_cast
      ring

theorem setSucc_frozen (b : Breaker) (r : String) (v : RPC)
    (h : lookupR b.R r = some v) (hs : v.Status ≠ HalfOpenStatus) (n : Nat) :
    succN b r n = b := by
  induction n with
  | zero => rfl
  | succ n ih =>
      rw [succN_succ, ih, setSucc_not_halfopen b r v h hs]

/-! ### Status changes of stored records -/

theorem setFail_status_eq (b : Breaker) (r0 : String) (now : Int) (r : String) (v v' : RPC)
    (h : lookupR b.R r = some v) (h' : lookupR (setFail b r0 now).R r = some v') :
    v'.Status = v.Status := by
  rcases h0 : lookupR b.R r0 with _ | w
  · have hr : r ≠ r0 := by
      rintro rfl
      rw [h0] at h
      cases h
    by_cases h1 : b.Config.FailThreshold = 1
    · rw [setFail_absent_one b r0 now h0 h1, lookupR_insertR_ne _ _ _ _ hr, h] at h'
      cases h'
      rfl
    · rw [setFail_absent_many b r0 now h0 h1, lookupR_insertR_ne _ _ _ _ hr,
        lookupR_insertR_ne _ _ _ _ hr, h] at h'
      cases h'
      rfl
  · cases hws : w.Status with
    | CloseStatus =>
        rw [setFail_closed b r0 now w h0 hws] at h'
        by_cases hr : r = r0
        · subst hr
          rw [lookupR_insertR_self] at h'
          rw [h0] at h
          cases h
          cases h'
          rfl
        · rw [lookupR_insertR_ne _ _ _ _ hr, h] at h'
          cases h'
          rfl
    | HalfOpenStatus =>
        rw [setFail_halfopen b r0 now w h0 hws, h] at h'
        cases h'
        rfl
    | OpenStatus =>
        rw [setFail_open b r0 now w h0 hws, h] at h'
        cases h'
        rfl

theorem setSucc_status_change (b : Breaker) (r0 r : String) (v v' : RPC)
    (h : lookupR b.R r = some v) (h' : lookupR (setSucc b r0).R r = some v')
    (hne : v.Status ≠ v'.Status) : v' = ⟨CloseStatus, 0, 0, 0⟩ := by
  rcases h0 : lookupR b.R r0 with _ | w
  · rw [setSucc_absent b r0 h0, h] at h'
    cases h'
    exact absurd rfl hne
  · by_cases hws : w.Status = HalfOpenStatus
    · by_cases hge : w.SuccCount + 1 ≥ b.Config.SuccThreshold
      · rw [setSucc_halfopen_close b r0 w h0 hws hge] at h'
        by_cases hr : r = r0
        · subst hr
          rw [lookupR_insertR_self] at h'
          cases h'
          rfl
        · rw [lookupR_insertR_ne _ _ _ _ hr, lookupR_insertR_ne _ _ _ _ hr, h] at h'
          cases h'
          exact absurd rfl hne
      · rw [setSucc_halfopen_below b r0 w h0 hws (by omega)] at h'
        by_cases hr : r = r0
        · subst hr
          rw [lookupR_insertR_self] at h'
          rw [h0] at h
          cases h
          cases h'
          exact absurd rfl hne
        · rw [lookupR_insertR_ne _ _ _ _ hr, h] at h'
          cases h'
          exact absurd rfl hne
    · rw [setSucc_not_halfopen b r0 w h0 hws, h] at h'
      cases h'
      exact absurd rfl hne

theorem autoHalfOpenTick_status_change (b : Breaker) (t : Int) (r : String) (v v' : RPC)
    (h : lookupR b.R r = some v) (h' : lookupR (autoHalfOpenTick b t).R r = some v')
    (hne : v.Status ≠ v'.Status) : v' = ⟨HalfOpenStatus, 0, 0, 0⟩ := by
  rw [lookupR_autoHalfOpenTick, h, Option.map_some'] at h'
  by_cases hc : v.Status = OpenStatus ∧ v.OpenTime + b.Config.OpenTimeout > t
  · rw [if_pos hc] at h'
    cases h'
    rfl
  · rw [if_neg hc] at h'
    cases h'
    exact absurd rfl hne

/-! ### Claims -/

/-- C1: the claim says that with `failThreshold = 2` the second consecutive
`recordFailure` on a fresh resource makes the status Open.  In the code,
`setOpenStatus` only rebinds a callee-local pointer, so the status stays
Closed: after the first call the record is Closed with `failCount = 1` (as
the claim says), but after the second call it is still Closed, now with
`failCount = 2`, and `openedAt` was never set. -/
theorem c1_divergence :
    getStatus (setFail (InitBreaker ⟨2, 1, 10⟩) "a" 5) "a" = CloseStatus ∧
    getStatus (setFail (setFail (InitBreaker ⟨2, 1, 10⟩) "a" 5) "a" 6) "a" = CloseStatus ∧
    lookupR (setFail (setFail (InitBreaker ⟨2, 1, 10⟩) "a" 5) "a" 6).R "a" =
      some ⟨CloseStatus, 2, 0, 0⟩ := by
  decide

/-- C2: the claim says a ticker pass demotes exactly the Open records whose
elapsed time since `openedAt` exceeds `openTimeout`.  The code's condition
`v.OpenTime + OpenTimeout > nowTime` is inverted: with `openTimeout = 10` and
`nowTime = 25`, the record opened at time 0 (elapsed 25, expired) is left
Open, while the record opened at time 20 (elapsed 5, still within the
window) is demoted to Half-Open. -/
theorem c2_divergence :
    lookupR (autoHalfOpenTick
      { Config := ⟨3, 2, 10⟩,
        R := [("a", ⟨OpenStatus, 0, 0, 0⟩), ("b", ⟨OpenStatus, 0, 0, 20⟩)] } 25).R "a" =
      some ⟨OpenStatus, 0, 0, 0⟩ ∧
    lookupR (autoHalfOpenTick
      { Config := ⟨3, 2, 10⟩,
        R := [("a", ⟨OpenStatus, 0, 0, 0⟩), ("b", ⟨OpenStatus, 0, 0, 20⟩)] } 25).R "b" =
      some ⟨HalfOpenStatus, 0, 0, 0⟩ := by
  decide

/-- C3: the claim says a single `recordFailure` on a Half-Open record
transitions it to Open with a fresh `openedAt` and zeroed counters.  In the
code the Half-Open branch of `setFail` calls `setOpenStatus`, which rebinds a
callee-local pointer and writes nothing back, so the whole breaker state is
unchanged: the record stays Half-Open with its `succCount` intact. -/
theorem c3_divergence :
    setFail { Config := ⟨3, 2, 10⟩, R := [("a", ⟨HalfOpenStatus, 0, 1, 0⟩)] } "a" 42 =
      { Config := ⟨3, 2, 10⟩, R := [("a", ⟨HalfOpenStatus, 0, 1, 0⟩)] } := by
  decide

/-- C4: the claim says that with `failThreshold = 1` a single `recordFailure`
on a fresh resource transitions it directly to Open.  The code creates the
fresh record and takes the explicit `FailThreshold == 1` fast path, but that
path only calls `setOpenStatus`, which writes nothing back: the stored record
is Closed with all fields zero, and `getStatus` reports Closed. -/
theorem c4_divergence :
    getStatus (setFail (InitBreaker ⟨1, 1, 10⟩) "a" 7) "a" = CloseStatus ∧
    lookupR (setFail (InitBreaker ⟨1, 1, 10⟩) "a" 7).R "a" = some ⟨CloseStatus, 0, 0, 0⟩ := by
  decide

/-- C5 counterexample: the claim quantifies over every Half-Open record, but
a Half-Open record whose `succCount` is already 1 under `succThreshold = 2`
is closed by a single `recordSuccess` — fewer than `succThreshold` calls —
contradicting "fewer than K consecutive recordSuccess calls leave the record
Half-Open". -/
theorem c5_counterexample :
    getStatus (setSucc { Config := ⟨3, 2, 10⟩, R := [("a", ⟨HalfOpenStatus, 0, 1, 0⟩)] } "a") "a"
      = CloseStatus := by
  decide

/-- C5 (amended): for every record that is Half-Open with `succCount = 0`
(the shape the ticker creates) and every `succThreshold = K ≥ 1`, `K`
consecutive `recordSuccess` calls transition the record to Closed with both
counters reset to 0, while any fewer, `n < K`, leave it Half-Open with
`succCount = n`. -/
theorem c5_amended (b : Breaker) (r : String) (v : RPC) (K : Int)
    (hv : lookupR b.R r = some v) (hst : v.Status = HalfOpenStatus)
    (hs0 : v.SuccCount = 0) (hK : b.Config.SuccThreshold = K) (hK1 : 1 ≤ K) :
    (∀ n : Nat, (n : Int) < K →
      getStatus (succN b r n) r = HalfOpenStatus ∧
      lookupR (succN b r n).R r = some { v with SuccCount := (n : Int) }) ∧
    getStatus (succN b r K.toNat) r = CloseStatus ∧
    lookupR (succN b r K.toNat).R r = some ⟨CloseStatus, 0, 0, 0⟩ := by
  constructor
  · intro n hn
    have hb := succN_halfopen_below b r v n hv hst (by rw [hs0, hK]; simpa using hn)
    rw [hs0, zero_add] at hb
    exact ⟨by rw [getStatus_some _ _ _ hb]; exact hst, hb⟩
  · set m := (K - 1).toNat with hmdef
    have hm : K.toNat = m + 1 := by omega
    have hmint : (m : Int) = K - 1 := by omega
    have hb := succN_halfopen_below b r v m hv hst (by rw [hs0, hK]; omega)
    rw [hs0, zero_add, hmint] at hb
    have hcfg : (succN b r m).Config = b.Config := succN_Config b r m
    have hclose := setSucc_halfopen_close (succN b r m) r { v with SuccCount := K - 1 } hb hst
      (by rw [hcfg, hK]; show K - 1 + 1 ≥ K; omega)
    have hlook : lookupR (setSucc (succN b r m) r).R r = some ⟨CloseStatus, 0, 0, 0⟩ := by
      rw [hclose]
      exact lookupR_insertR_self _ _ _
    rw [hm, succN_succ]
    exact ⟨by rw [getStatus_some _ _ _ hlook], hlook⟩

/-- C5 witness: with `succThreshold = 2` and a fresh Half-Open record, two
consecutive successes close the breaker. -/
theorem c5_witness :
    getStatus (succN { Config := ⟨3, 2, 10⟩, R := [("a", ⟨HalfOpenStatus, 0, 0, 0⟩)] } "a"
      (Int.toNat 2)) "a" = CloseStatus :=
  (c5_amended { Config := ⟨3, 2, 10⟩, R := [("a", ⟨HalfOpenStatus, 0, 0, 0⟩)] } "a"
    ⟨HalfOpenStatus, 0, 0, 0⟩ 2 (by decide) rfl rfl rfl (by decide)).2.1

/-- C6: starting from the empty registry of `InitBreaker`, under every finite
sequence of `recordFailure`, `recordSuccess`, `getStatus` and ticker-pass
steps, every stored record is Closed with `OpenTime = 0` and `SuccCount = 0`:
Open and Half-Open records are unreachable because the transition-to-Open
helper rebinds a local pointer and never writes back, and the ticker and
success-close branches are guarded by those unreachable statuses. -/
theorem c6_closed_invariant (cfg : Config) (ops : List Op) (r : String) (v : RPC)
    (h : lookupR (run (InitBreaker cfg) ops).R r = some v) :
    v.Status = CloseStatus ∧ v.OpenTime = 0 ∧ v.SuccCount = 0 := by
  obtain ⟨h1, h2, h3, -⟩ := breakerInv_run (InitBreaker cfg) ops (breakerInv_init cfg) r v h
  exact ⟨h1, h2, h3⟩

/-- C6 witness: the record produced by one failure, one success, one ticker
pass and one query is Closed with `OpenTime = 0` and `SuccCount = 0`. -/
theorem c6_witness :
    (RPC.mk CloseStatus 1 0 0).Status = CloseStatus ∧
    (RPC.mk CloseStatus 1 0 0).OpenTime = 0 ∧
    (RPC.mk CloseStatus 1 0 0).SuccCount = 0 :=
  c6_closed_invariant ⟨3, 2, 10⟩ [Op.fail "a" 0, Op.succ "a", Op.tick 5, Op.query "a"] "a"
    (RPC.mk CloseStatus 1 0 0) (by decide)

/-- C7: `getStatus` returns Closed for a resource with no record, and the
record's current status for a resource with one. -/
theorem c7_getStatus (b : Breaker) (r : String) :
    (lookupR b.R r = none → getStatus b r = CloseStatus) ∧
    (∀ v, lookupR b.R r = some v → getStatus b r = v.Status) :=
  ⟨fun h => getStatus_none b r h, fun v h => getStatus_some b r v h⟩

/-- C7 witness: `getStatus` on the empty registry is Closed, and on a stored
Open record it returns that record's status. -/
theorem c7_witness :
    getStatus (InitBreaker ⟨3, 2, 10⟩) "a" = CloseStatus ∧
    getStatus { Config := ⟨3, 2, 10⟩, R := [("a", ⟨OpenStatus, 0, 0, 7⟩)] } "a" =
      (RPC.mk OpenStatus 0 0 7).Status :=
  ⟨(c7_getStatus (InitBreaker ⟨3, 2, 10⟩) "a").1 rfl,
   (c7_getStatus { Config := ⟨3, 2, 10⟩, R := [("a", ⟨OpenStatus, 0, 0, 7⟩)] } "a").2
     (RPC.mk OpenStatus 0 0 7) (by decide)⟩

/-- C8: `recordFailure` on an Open record, and `recordSuccess` on an absent,
Closed or Open record, each leave the whole breaker state (registry mapping,
status, counters, `openedAt`) unchanged. -/
theorem c8_noop (b : Breaker) (r : String) (now : Int) :
    (∀ v, lookupR b.R r = some v → v.Status = OpenStatus → setFail b r now = b) ∧
    (lookupR b.R r = none → setSucc b r = b) ∧
    (∀ v, lookupR b.R r = some v → v.Status = CloseStatus ∨ v.Status = OpenStatus →
      setSucc b r = b) := by
  refine ⟨fun v h hs => setFail_open b r now v h hs,
          fun h => setSucc_absent b r h,
          fun v h hs => setSucc_not_halfopen b r v h ?_⟩
  rcases hs with hs | hs <;> rw [hs] <;> intro hc <;> cases hc

/-- C8 witness: a failure on an Open record, a success on an absent resource
and a success on an Open record all leave a concrete breaker unchanged. -/
theorem c8_witness :
    setFail { Config := ⟨3, 2, 10⟩, R := [("a", ⟨OpenStatus, 0, 0, 7⟩)] } "a" 99 =
      { Config := ⟨3, 2, 10⟩, R := [("a", ⟨OpenStatus, 0, 0, 7⟩)] } ∧
    setSucc { Config := ⟨3, 2, 10⟩, R := [("a", ⟨OpenStatus, 0, 0, 7⟩)] } "b" =
      { Config := ⟨3, 2, 10⟩, R := [("a", ⟨OpenStatus, 0, 0, 7⟩)] } ∧
    setSucc { Config := ⟨3, 2, 10⟩, R := [("a", ⟨OpenStatus, 0, 0, 7⟩)] } "a" =
      { Config := ⟨3, 2, 10⟩, R := [("a", ⟨OpenStatus, 0, 0, 7⟩)] } :=
  ⟨(c8_noop _ "a" 99).1 ⟨OpenStatus, 0, 0, 7⟩ (by decide) rfl,
   (c8_noop _ "b" 0).2.1 (by decide),
   (c8_noop _ "a" 0).2.2 ⟨OpenStatus, 0, 0, 7⟩ (by decide) (Or.inr rfl)⟩

/-- C9: in every reachable breaker state both counters of every stored record
are nonnegative, and whenever a single operation changes the status of a
stored record, both counters of the new record are 0. -/
theorem c9_counters :
    (∀ (cfg : Config) (ops : List Op) (r : String) (v : RPC),
      lookupR (run (InitBreaker cfg) ops).R r = some v →
        0 ≤ v.FailCount ∧ 0 ≤ v.SuccCount) ∧
    (∀ (b : Breaker) (op : Op) (r : String) (v v' : RPC),
      lookupR b.R r = some v → lookupR (execOp b op).R r = some v' →
        v.Status ≠ v'.Status → v'.FailCount = 0 ∧ v'.SuccCount = 0) := by
  constructor
  · intro cfg ops r v h
    obtain ⟨-, -, h3, h4⟩ := breakerInv_run (InitBreaker cfg) ops (breakerInv_init cfg) r v h
    exact ⟨h4, by omega⟩
  · intro b op r v v' h h' hne
    cases op with
    | fail r0 now => exact absurd (setFail_status_eq b r0 now r v v' h h').symm hne
    | succ r0 =>
        have hv' := setSucc_status_change b r0 r v v' h h' hne
        subst hv'
        exact ⟨rfl, rfl⟩
    | tick t =>
        have hv' := autoHalfOpenTick_status_change b t r v v' h h' hne
        subst hv'
        exact ⟨rfl, rfl⟩
    | query r0 =>
        rw [show execOp b (Op.query r0) = b from rfl, h] at h'
        cases h'
        exact absurd rfl hne

/-- C9 witness: the record reached by a single failure has nonnegative
counters. -/
theorem c9_witness :
    0 ≤ (RPC.mk CloseStatus 1 0 0).FailCount ∧ 0 ≤ (RPC.mk CloseStatus 1 0 0).SuccCount :=
  c9_counters.1 ⟨3, 2, 10⟩ [Op.fail "a" 0] "a" (RPC.mk CloseStatus 1 0 0) (by decide)

/-- C10: `getStatus` is a pure read: as a step it leaves the breaker state
unchanged, so inserting a query anywhere in a sequence of operations does not
change the resulting state; the returned status is a function of the state
and the resource only. -/
theorem c10_query_pure (b : Breaker) (ops1 ops2 : List Op) (r : String) :
    run b (ops1 ++ Op.query r :: ops2) = run b (ops1 ++ ops2) ∧
    execOp (run b ops1) (Op.query r) = run b ops1 := by
  constructor
  · rw [run, run, List.foldl_append, List.foldl_append]
    rfl
  · rfl

end Governance
